import Mathlib

/-!
Verification of the nusbip USB/IP server (src/src/lib.rs) against its
specification.  The device pool, its operations, the protocol-facing
handlers and the per-connection loop are embedded shallowly below;
bus ids are modelled as their UTF-8 byte sequences (Rust `String`
equality coincides with byte-sequence equality).  Pieces of the
repository that are referenced from `lib.rs` but whose source files are
not part of the given tree (`device.rs`, `endpoint.rs`, `setup.rs`,
`usbip_protocol.rs`) are modelled from the specification; each such
definition says so in its doc comment.
-/

namespace Nusbip

/-- A bus id, modelled as the UTF-8 byte sequence of the Rust `String`. -/
abbrev BusId := List Nat

/-- Modelled from the spec (section 3): `SetupPacket` with fixed-offset
little-endian field extraction (`setup.rs` is not in the given tree). -/
structure SetupPacket where
  request_type : Nat
  request : Nat
  value : Nat
  index : Nat
  length : Nat
deriving DecidableEq, Repr

/-- Modelled from the spec (section 4.1): parse the 8-byte control setup
buffer: request_type@0, request@1, value@2 LE, index@4 LE, length@6 LE. -/
def SetupPacket.parse (b : List Nat) : SetupPacket :=
  { request_type := b.getD 0 0
    request := b.getD 1 0
    value := b.getD 2 0 + 256 * b.getD 3 0
    index := b.getD 4 0 + 256 * b.getD 5 0
    length := b.getD 6 0 + 256 * b.getD 7 0 }

/-- Modelled from the spec (section 3): endpoint description
(`endpoint.rs` is not in the given tree). -/
structure UsbEndpoint where
  address : Nat
  attributes : Nat
  max_packet_size : Nat
  interval : Nat
deriving DecidableEq, Repr

/-- USB transfer direction. -/
inductive Direction where
  | In
  | Out
deriving DecidableEq, Repr

/-- Modelled from the spec (section 3): address bit 7 is the direction
flag of an endpoint. -/
def UsbEndpoint.direction (ep : UsbEndpoint) : Direction :=
  if ep.address.testBit 7 then .In else .Out

/-- Modelled from the spec (section 3): an interface holds its class
triple, its endpoints and an opaque URB handler capability.  The handler
is the interface-URB contract of section 4.3, abstracted as a function
from (endpoint, transfer_buffer_length, setup, request bytes) to a
result byte sequence. -/
structure UsbInterface where
  interface_class : Nat
  interface_subclass : Nat
  interface_protocol : Nat
  endpoints : List UsbEndpoint
  handler : UsbEndpoint → Nat → SetupPacket → List Nat → Except String (List Nat)

/-- Modelled from the spec (section 3): the device identity and topology
fields used by the pool and the dispatcher.  Descriptor and string-table
fields play no role in any claim and are omitted.  `device_handler` is
the device-URB contract of section 4.3 abstracted as a function. -/
structure UsbDevice where
  bus_id : BusId
  ep0_in : UsbEndpoint := ⟨0x80, 0, 64, 0⟩
  ep0_out : UsbEndpoint := ⟨0x00, 0, 64, 0⟩
  interfaces : List UsbInterface := []
  device_handler : Nat → SetupPacket → List Nat → Except String (List Nat) :=
    fun _ _ _ => .ok []

/-- Scan the interfaces (with their positional index) for an endpoint
with the given address; part of `find_ep`, modelled from the spec
(section 4.2). -/
def findEpInIntfs : List UsbInterface → Nat → Nat → Option (UsbEndpoint × Option Nat)
  | [], _, _ => none
  | intf :: rest, i, addr =>
    match intf.endpoints.find? (fun ep => ep.address == addr) with
    | some ep => some (ep, some i)
    | none => findEpInIntfs rest (i + 1) addr

/-- Modelled from the spec (section 4.2), `device.rs` not being in the
given tree: address 0x00 / 0x80 resolves to `ep0_out` / `ep0_in` with no
interface, otherwise each interface's endpoint list is scanned for a
matching address and the owning interface index is returned. -/
def UsbDevice.find_ep (d : UsbDevice) (addr : Nat) : Option (UsbEndpoint × Option Nat) :=
  if addr = 0x00 then some (d.ep0_out, none)
  else if addr = 0x80 then some (d.ep0_in, none)
  else findEpInIntfs d.interfaces 0 addr

/-- Modelled from the spec (section 4.3 step 2), `device.rs` not being in
the given tree: when the owning interface is absent (endpoint 0) the
device handler runs, otherwise the owning interface's handler runs. -/
def UsbDevice.handle_urb (d : UsbDevice) (ep : UsbEndpoint) (intf : Option Nat)
    (transfer_buffer_length : Nat) (setup : SetupPacket) (data : List Nat) :
    Except String (List Nat) :=
  match intf with
  | none => d.device_handler transfer_buffer_length setup data
  | some i =>
    match d.interfaces[i]? with
    | some itf => itf.handler ep transfer_buffer_length setup data
    | none => .error "interface not found"

/-- The device pool of `UsbIpServer` (src/src/lib.rs, lines 41-45): the
available and used device lists.  The Rust locks serialize all pool
mutations, so the sequential state-passing embedding below is faithful
to each atomic operation. -/
structure UsbIpServer where
  available_devices : List UsbDevice
  used_devices : List UsbDevice

/-- Number of devices in a list whose bus id is `b`. -/
def busCount (l : List UsbDevice) (b : BusId) : Nat :=
  l.countP (fun d => d.bus_id == b)

@[simp] theorem busCount_nil (b : BusId) : busCount [] b = 0 := rfl

theorem busCount_cons (d : UsbDevice) (l : List UsbDevice) (b : BusId) :
    busCount (d :: l) b = busCount l b + (if d.bus_id = b then 1 else 0) := by
  simp [busCount, List.countP_cons]

theorem busCount_append (l₁ l₂ : List UsbDevice) (b : BusId) :
    busCount (l₁ ++ l₂) b = busCount l₁ b + busCount l₂ b := by
  simp [busCount, List.countP_append]

theorem busCount_eq_zero {l : List UsbDevice} {b : BusId} :
    busCount l b = 0 ↔ ∀ d ∈ l, d.bus_id ≠ b := by
  simp [busCount, List.countP_eq_zero]

/-- `l.any (fun d => d.bus_id == b)` tested through `busCount`. -/
theorem any_busId_eq (l : List UsbDevice) (b : BusId) :
    l.any (fun d => d.bus_id == b) = true ↔ busCount l b ≠ 0 := by
  rw [Ne, busCount_eq_zero]
  simp

/-- Remove the first element satisfying `p` and return it together with
the remaining list; this is Rust's `iter().position(p)` followed by
`remove(i)`. -/
def extractFirst (p : UsbDevice → Bool) : List UsbDevice → Option (UsbDevice × List UsbDevice)
  | [] => none
  | d :: rest =>
    if p d then some (d, rest)
    else (extractFirst p rest).map (fun x => (x.1, d :: x.2))

theorem extractFirst_eq_none {p : UsbDevice → Bool} {l : List UsbDevice} :
    extractFirst p l = none ↔ ∀ d ∈ l, p d = false := by
  induction l with
  | nil => simp [extractFirst]
  | cons d rest ih =>
    cases hp : p d with
    | true => simp [extractFirst, hp]
    | false =>
      rw [extractFirst]
      simp only [hp, Bool.false_eq_true, if_false, Option.map_eq_none', ih,
        List.mem_cons, forall_eq_or_imp, hp, true_and]

theorem extractFirst_eq_some {p : UsbDevice → Bool} :
    ∀ {l l' : List UsbDevice} {x : UsbDevice}, extractFirst p l = some (x, l') →
      p x = true ∧ ∃ l₁ l₂, l = l₁ ++ x :: l₂ ∧ l' = l₁ ++ l₂ := by
  intro l
  induction l with
  | nil => intro l' x h; simp [extractFirst] at h
  | cons d rest ih =>
    intro l' x h
    rw [extractFirst] at h
    by_cases hp : p d
    · rw [if_pos hp] at h
      have hinj := Option.some.inj h
      obtain ⟨rfl, rfl⟩ : d = x ∧ rest = l' :=
        ⟨congrArg Prod.fst hinj, congrArg Prod.snd hinj⟩
      exact ⟨hp, [], rest, rfl, rfl⟩
    · rw [if_neg hp] at h
      cases hrec : extractFirst p rest with
      | none => rw [hrec] at h; simp at h
      | some pr =>
        rw [hrec] at h
        simp only [Option.map_some'] at h
        have hinj := Option.some.inj h
        have hx : pr.1 = x := congrArg Prod.fst hinj
        have hl : d :: pr.2 = l' := congrArg Prod.snd hinj
        obtain ⟨hpx, l₁, l₂, hsplit, hrem⟩ := @ih pr.2 pr.1 (by rw [hrec])
        subst hx
        refine ⟨hpx, d :: l₁, l₂, by simp [hsplit], by rw [← hl, hrem]; simp⟩

/-- `UsbIpServer::add_device` (src/src/lib.rs, lines 226-228): push onto
the available list. -/
def UsbIpServer.add_device (s : UsbIpServer) (d : UsbDevice) : UsbIpServer :=
  { s with available_devices := s.available_devices ++ [d] }

/-- `UsbIpServer::remove_device` (src/src/lib.rs, lines 230-256): remove
the first available device with the given bus id (the Rust code also
releases the backend claim, a hardware side effect outside this state);
if absent but in use, fail with the busy error, otherwise not-found. -/
def UsbIpServer.remove_device (s : UsbIpServer) (bus_id : BusId) :
    Except String UsbIpServer :=
  match extractFirst (fun d => d.bus_id == bus_id) s.available_devices with
  | some (_, ad') => .ok { s with available_devices := ad' }
  | none =>
    if s.used_devices.any (fun d => d.bus_id == bus_id) then
      .error "Device is in use"
    else
      .error "Device not found"

/-- `UsbIpServer::occupy` (src/src/lib.rs, lines 258-269): remove the
first available device with the given bus id (error if none), then push
it onto the used list unless a device with the same bus id is already
there, and return it. -/
def UsbIpServer.occupy (s : UsbIpServer) (bus_id : BusId) :
    Except String (UsbDevice × UsbIpServer) :=
  match extractFirst (fun d => d.bus_id == bus_id) s.available_devices with
  | none => .error "No available device"
  | some (device, ad') =>
    let ud' :=
      if s.used_devices.any (fun d => d.bus_id == device.bus_id) then
        s.used_devices
      else
        s.used_devices ++ [device]
    .ok (device, ⟨ad', ud'⟩)

/-- `UsbIpServer::release` (src/src/lib.rs, lines 271-283): drop every
used device with the released device's bus id, and push the device onto
the available list unless one with the same bus id is already there. -/
def UsbIpServer.release (s : UsbIpServer) (device : UsbDevice) : UsbIpServer :=
  let ud' := s.used_devices.filter (fun d => d.bus_id != device.bus_id)
  let ad' :=
    if s.available_devices.any (fun d => d.bus_id == device.bus_id) then
      s.available_devices
    else
      s.available_devices ++ [device]
  ⟨ad', ud'⟩

/-- The merge loop of `UsbIpServer::cleanup` (src/src/lib.rs, lines
289-293): push each used device onto the available list unless one with
the same bus id is already there; the list grows as the loop runs. -/
def cleanupFold (ad ud : List UsbDevice) : List UsbDevice :=
  ud.foldl
    (fun acc d => if acc.any (fun dev => d.bus_id == dev.bus_id) then acc else acc ++ [d])
    ad

/-- `UsbIpServer::cleanup` (src/src/lib.rs, lines 286-304): merge used
devices back into available and clear the used list; on Linux the
available list is additionally cleared after releasing the OS claims
(a hardware side effect outside this state). -/
def UsbIpServer.cleanup (s : UsbIpServer) (linux : Bool) : UsbIpServer :=
  let ad := cleanupFold s.available_devices s.used_devices
  ⟨if linux then [] else ad, []⟩

/-! ### Counting lemmas for the pool operations -/

theorem busCount_filter_ne_self (l : List UsbDevice) (c : BusId) :
    busCount (l.filter (fun d => d.bus_id != c)) c = 0 := by
  rw [busCount_eq_zero]
  intro d hd
  have := (List.mem_filter.mp hd).2
  simpa using this

theorem busCount_filter_ne_other (l : List UsbDevice) {b c : BusId} (h : b ≠ c) :
    busCount (l.filter (fun d => d.bus_id != c)) b = busCount l b := by
  induction l with
  | nil => simp
  | cons d rest ih =>
    by_cases hd : d.bus_id = c
    · have : (d.bus_id != c) = false := by simp [hd]
      rw [List.filter_cons, this]
      simp only [Bool.false_eq_true, if_false]
      rw [ih, busCount_cons]
      have : d.bus_id ≠ b := by rw [hd]; exact fun hcb => h hcb.symm
      simp [this]
    · have : (d.bus_id != c) = true := by simp [hd]
      rw [List.filter_cons, this]
      simp only [if_true]
      rw [busCount_cons, busCount_cons, ih]

theorem release_used_self (s : UsbIpServer) (d : UsbDevice) :
    busCount (s.release d).used_devices d.bus_id = 0 := by
  simp only [UsbIpServer.release]
  exact busCount_filter_ne_self _ _

theorem release_used_other (s : UsbIpServer) (d : UsbDevice) {b : BusId}
    (h : b ≠ d.bus_id) :
    busCount (s.release d).used_devices b = busCount s.used_devices b := by
  simp only [UsbIpServer.release]
  exact busCount_filter_ne_other _ h

theorem release_avail_self (s : UsbIpServer) (d : UsbDevice) :
    busCount (s.release d).available_devices d.bus_id =
      max (busCount s.available_devices d.bus_id) 1 := by
  simp only [UsbIpServer.release]
  by_cases h : s.available_devices.any (fun x => x.bus_id == d.bus_id) = true
  · rw [if_pos h]
    have := (any_busId_eq s.available_devices d.bus_id).mp h
    omega
  · rw [if_neg h]
    have h0 : busCount s.available_devices d.bus_id = 0 := by
      by_contra hne
      exact h ((any_busId_eq s.available_devices d.bus_id).mpr hne)
    rw [busCount_append, h0, busCount_cons]
    simp

theorem release_avail_other (s : UsbIpServer) (d : UsbDevice) {b : BusId}
    (h : b ≠ d.bus_id) :
    busCount (s.release d).available_devices b = busCount s.available_devices b := by
  simp only [UsbIpServer.release]
  by_cases hc : s.available_devices.any (fun x => x.bus_id == d.bus_id) = true
  · rw [if_pos hc]
  · rw [if_neg hc, busCount_append, busCount_cons]
    have : d.bus_id ≠ b := fun hdb => h hdb.symm
    simp [this]

theorem busCount_pos_iff {l : List UsbDevice} {b : BusId} :
    0 < busCount l b ↔ ∃ d ∈ l, d.bus_id = b := by
  simp [busCount, List.countP_pos_iff]

theorem occupy_eq_error_iff (s : UsbIpServer) (b : BusId) :
    (∃ e, s.occupy b = .error e) ↔ busCount s.available_devices b = 0 := by
  constructor
  · rintro ⟨e, he⟩
    rw [UsbIpServer.occupy] at he
    cases hx : extractFirst (fun d => d.bus_id == b) s.available_devices with
    | none =>
      rw [busCount_eq_zero]
      intro d hd
      have := extractFirst_eq_none.mp hx d hd
      simpa using this
    | some pr =>
      rw [hx] at he
      simp at he
  · intro h0
    rw [UsbIpServer.occupy]
    have hx : extractFirst (fun d => d.bus_id == b) s.available_devices = none := by
      rw [extractFirst_eq_none]
      intro d hd
      have := busCount_eq_zero.mp h0 d hd
      simpa using this
    rw [hx]
    exact ⟨_, rfl⟩

theorem occupy_ok_spec (s : UsbIpServer) (b : BusId) (dev : UsbDevice)
    (s' : UsbIpServer) (h : s.occupy b = .ok (dev, s')) :
    dev.bus_id = b ∧
    busCount s'.available_devices b + 1 = busCount s.available_devices b ∧
    (∀ c, c ≠ b → busCount s'.available_devices c = busCount s.available_devices c) ∧
    busCount s'.used_devices b =
      (if busCount s.used_devices b = 0 then 1 else busCount s.used_devices b) ∧
    (∀ c, c ≠ b → busCount s'.used_devices c = busCount s.used_devices c) := by
  rw [UsbIpServer.occupy] at h
  cases hx : extractFirst (fun d => d.bus_id == b) s.available_devices with
  | none => rw [hx] at h; simp at h
  | some pr =>
    rw [hx] at h
    simp only [Except.ok.injEq, Prod.mk.injEq] at h
    obtain ⟨hdev, hs'⟩ := h
    obtain ⟨hpb, l₁, l₂, hsplit, hrem⟩ :=
      @extractFirst_eq_some _ _ pr.2 pr.1 (by rw [hx])
    have hb1 : pr.1.bus_id = b := by simpa using hpb
    have hb : dev.bus_id = b := by rw [← hdev]; exact hb1
    have had : s'.available_devices = l₁ ++ l₂ := by rw [← hs']; exact hrem
    have hud : s'.used_devices =
        if s.used_devices.any (fun d => d.bus_id == pr.1.bus_id) then s.used_devices
        else s.used_devices ++ [pr.1] := by rw [← hs']
    refine ⟨hb, ?_, ?_, ?_, ?_⟩
    · rw [had, hsplit, busCount_append, busCount_append, busCount_cons, if_pos hb1]
      omega
    · intro c hc
      have hne : pr.1.bus_id ≠ c := by rw [hb1]; exact fun hbc => hc hbc.symm
      rw [had, hsplit, busCount_append, busCount_append, busCount_cons, if_neg hne]
      omega
    · rw [hud]
      by_cases hany : (s.used_devices.any fun d => d.bus_id == pr.1.bus_id) = true
      · rw [if_pos hany]
        have hne := (any_busId_eq s.used_devices pr.1.bus_id).mp hany
        rw [hb1] at hne
        rw [if_neg hne]
      · rw [if_neg hany]
        have h0 : busCount s.used_devices pr.1.bus_id = 0 := by
          by_contra hne
          exact hany ((any_busId_eq s.used_devices pr.1.bus_id).mpr hne)
        rw [hb1] at h0
        rw [busCount_append, h0, busCount_cons, busCount_nil, if_pos hb1]
        simp
    · intro c hc
      rw [hud]
      by_cases hany : (s.used_devices.any fun d => d.bus_id == pr.1.bus_id) = true
      · rw [if_pos hany]
      · have hne : pr.1.bus_id ≠ c := by rw [hb1]; exact fun hbc => hc hbc.symm
        rw [if_neg hany, busCount_append, busCount_cons, busCount_nil, if_neg hne]
        omega

theorem remove_device_ok_spec (s : UsbIpServer) (b : BusId) (s' : UsbIpServer)
    (h : s.remove_device b = .ok s') :
    busCount s'.available_devices b + 1 = busCount s.available_devices b ∧
    (∀ c, c ≠ b → busCount s'.available_devices c = busCount s.available_devices c) ∧
    s'.used_devices = s.used_devices := by
  rw [UsbIpServer.remove_device] at h
  cases hx : extractFirst (fun d => d.bus_id == b) s.available_devices with
  | none =>
    rw [hx] at h
    by_cases hu : (s.used_devices.any fun d => d.bus_id == b) = true
    · rw [if_pos hu] at h; simp at h
    · rw [if_neg hu] at h; simp at h
  | some pr =>
    rw [hx] at h
    simp only [Except.ok.injEq] at h
    obtain ⟨hpb, l₁, l₂, hsplit, hrem⟩ :=
      @extractFirst_eq_some _ _ pr.2 pr.1 (by rw [hx])
    have hb : pr.1.bus_id = b := by simpa using hpb
    have had : s'.available_devices = l₁ ++ l₂ := by rw [← h]; exact hrem
    have hud : s'.used_devices = s.used_devices := by rw [← h]
    refine ⟨?_, ?_, hud⟩
    · rw [had, hsplit, busCount_append, busCount_append, busCount_cons, if_pos hb]
      omega
    · intro c hc
      have hne : pr.1.bus_id ≠ c := by rw [hb]; exact fun hbc => hc hbc.symm
      rw [had, hsplit, busCount_append, busCount_append, busCount_cons, if_neg hne]
      omega

theorem cleanupFold_le_one {b : BusId} :
    ∀ (ud ad : List UsbDevice), busCount ad b ≤ 1 → busCount (cleanupFold ad ud) b ≤ 1 := by
  intro ud
  induction ud with
  | nil => intro ad h; exact h
  | cons d rest ih =>
    intro ad h
    rw [cleanupFold, List.foldl_cons]
    by_cases hany : (ad.any fun dev => d.bus_id == dev.bus_id) = true
    · rw [if_pos hany]
      exact ih ad h
    · rw [if_neg hany]
      apply ih
      have h0 : busCount ad d.bus_id = 0 := by
        by_contra hne
        apply hany
        rw [List.any_eq_true]
        obtain ⟨x, hx, hxb⟩ := busCount_pos_iff.mp (Nat.pos_of_ne_zero hne)
        exact ⟨x, hx, by simp [hxb]⟩
      rw [busCount_append, busCount_cons, busCount_nil]
      by_cases hdb : d.bus_id = b
      · subst hdb
        rw [if_pos rfl, h0]
      · rw [if_neg hdb]
        omega

theorem cleanupFold_zero {b : BusId} :
    ∀ (ud ad : List UsbDevice), busCount ad b = 0 → busCount ud b = 0 →
      busCount (cleanupFold ad ud) b = 0 := by
  intro ud
  induction ud with
  | nil => intro ad h _; exact h
  | cons d rest ih =>
    intro ad had hud
    rw [busCount_cons] at hud
    rw [cleanupFold, List.foldl_cons]
    by_cases hany : (ad.any fun dev => d.bus_id == dev.bus_id) = true
    · rw [if_pos hany]
      exact ih ad had (by omega)
    · rw [if_neg hany]
      apply ih
      · rw [busCount_append, had, busCount_cons, busCount_nil]
        by_cases hdb : d.bus_id = b
        · rw [if_pos hdb] at hud
          omega
        · rw [if_neg hdb]
      · omega

/-! ### The pool invariant and its preservation -/

/-- The invariant of the spec (section 3): a given bus id appears in at
most one of the two sets at any instant — never in both, never
duplicated within one set. -/
def PoolInv (s : UsbIpServer) : Prop :=
  ∀ b : BusId, busCount s.available_devices b + busCount s.used_devices b ≤ 1

theorem poolInv_release (s : UsbIpServer) (d : UsbDevice) (h : PoolInv s) :
    PoolInv (s.release d) := by
  intro b
  by_cases hb : b = d.bus_id
  · subst hb
    rw [release_used_self, release_avail_self]
    have := h d.bus_id
    omega
  · rw [release_used_other s d hb, release_avail_other s d hb]
    exact h b

theorem poolInv_occupy_ok (s : UsbIpServer) (b : BusId) (dev : UsbDevice)
    (s' : UsbIpServer) (hinv : PoolInv s) (hok : s.occupy b = .ok (dev, s')) :
    PoolInv s' ∧ busCount s'.available_devices b = 0 ∧
      busCount s'.used_devices b = 1 := by
  obtain ⟨h1, h2, h3, h4, h5⟩ := occupy_ok_spec s b dev s' hok
  have hb := hinv b
  have hud0 : busCount s.used_devices b = 0 := by omega
  rw [hud0, if_pos rfl] at h4
  refine ⟨?_, by omega, h4⟩
  intro c
  by_cases hc : c = b
  · subst hc
    omega
  · rw [h3 c hc, h5 c hc]
    exact hinv c

theorem poolInv_add (s : UsbIpServer) (d : UsbDevice) (hinv : PoolInv s)
    (h0 : busCount s.available_devices d.bus_id = 0)
    (h1 : busCount s.used_devices d.bus_id = 0) :
    PoolInv (s.add_device d) := by
  intro b
  rw [UsbIpServer.add_device]
  simp only []
  rw [busCount_append, busCount_cons, busCount_nil]
  by_cases hdb : d.bus_id = b
  · subst hdb
    rw [if_pos rfl, h0, h1]
  · rw [if_neg hdb]
    have := hinv b
    omega

theorem poolInv_remove_ok (s : UsbIpServer) (b : BusId) (s' : UsbIpServer)
    (hinv : PoolInv s) (hok : s.remove_device b = .ok s') : PoolInv s' := by
  obtain ⟨h1, h2, h3⟩ := remove_device_ok_spec s b s' hok
  intro c
  rw [h3]
  by_cases hc : c = b
  · subst hc
    have := hinv c
    omega
  · rw [h2 c hc]
    exact hinv c

theorem poolInv_cleanup (s : UsbIpServer) (linux : Bool) (hinv : PoolInv s) :
    PoolInv (s.cleanup linux) := by
  intro b
  rw [UsbIpServer.cleanup]
  cases linux with
  | true => simp
  | false =>
    simp only [Bool.false_eq_true, if_false, busCount_nil]
    have := hinv b
    have hle := @cleanupFold_le_one b s.used_devices s.available_devices (by omega)
    omega

/-! ### Traces of pool operations (claim C1) -/

/-- The management operations of the device pool (spec section 4.4). -/
inductive PoolOp where
  | addDevice (d : UsbDevice)
  | removeDevice (b : BusId)
  | occupyDevice (b : BusId)
  | releaseDevice (d : UsbDevice)
  | cleanupPool (linux : Bool)

/-- Apply one pool operation; a failing `remove_device` or `occupy`
leaves the pool unchanged. -/
def PoolOp.apply (op : PoolOp) (s : UsbIpServer) : UsbIpServer :=
  match op with
  | .addDevice d => s.add_device d
  | .removeDevice b =>
    match s.remove_device b with
    | .ok s' => s'
    | .error _ => s
  | .occupyDevice b =>
    match s.occupy b with
    | .ok x => x.2
    | .error _ => s
  | .releaseDevice d => s.release d
  | .cleanupPool linux => s.cleanup linux

def runOps : List PoolOp → UsbIpServer → UsbIpServer
  | [], s => s
  | op :: rest, s => runOps rest (op.apply s)

/-- The pool every server starts from. -/
def emptyServer : UsbIpServer := ⟨[], []⟩

/-- The bus ids of the devices added via `add_device` in a trace. -/
def addedBusIds : List PoolOp → List BusId
  | [] => []
  | .addDevice d :: rest => d.bus_id :: addedBusIds rest
  | _ :: rest => addedBusIds rest

/-- The amended trace precondition: every device added via `add_device`
has a bus id distinct from all previously added ones, and every device
passed to `release` carries the bus id of a previously added device
(`acc` accumulates the added bus ids). -/
def tracePre : List BusId → List PoolOp → Bool
  | _, [] => true
  | acc, .addDevice d :: rest =>
    !(decide (d.bus_id ∈ acc)) && tracePre (d.bus_id :: acc) rest
  | acc, .releaseDevice d :: rest =>
    decide (d.bus_id ∈ acc) && tracePre acc rest
  | acc, .removeDevice _ :: rest => tracePre acc rest
  | acc, .occupyDevice _ :: rest => tracePre acc rest
  | acc, .cleanupPool _ :: rest => tracePre acc rest

/-- Every bus id present anywhere in the pool has been added already. -/
def PoolSub (s : UsbIpServer) (acc : List BusId) : Prop :=
  ∀ b : BusId, b ∉ acc →
    busCount s.available_devices b = 0 ∧ busCount s.used_devices b = 0

theorem runOps_inv :
    ∀ (ops : List PoolOp) (acc : List BusId) (s : UsbIpServer),
      tracePre acc ops = true → PoolInv s → PoolSub s acc →
      PoolInv (runOps ops s) := by
  intro ops
  induction ops with
  | nil => intro acc s _ hinv _; exact hinv
  | cons op rest ih =>
    intro acc s hpre hinv hsub
    rw [runOps]
    cases op with
    | addDevice d =>
      simp only [tracePre, Bool.and_eq_true, Bool.not_eq_true', decide_eq_false_iff_not] at hpre
      obtain ⟨hmem, hrest⟩ := hpre
      apply ih (d.bus_id :: acc) _ hrest
      · exact poolInv_add s d hinv (hsub d.bus_id hmem).1 (hsub d.bus_id hmem).2
      · intro b hb
        rw [List.mem_cons] at hb
        push_neg at hb
        obtain ⟨hb1, hb2⟩ := hb
        have hs := hsub b hb2
        simp only [PoolOp.apply, UsbIpServer.add_device]
        rw [busCount_append, busCount_cons, busCount_nil, if_neg (fun hh => hb1 hh.symm)]
        omega
    | removeDevice b =>
      simp only [tracePre] at hpre
      cases hrem : s.remove_device b with
      | error e =>
        have happ : (PoolOp.removeDevice b).apply s = s := by
          simp [PoolOp.apply, hrem]
        rw [happ]
        exact ih acc s hpre hinv hsub
      | ok s' =>
        have happ : (PoolOp.removeDevice b).apply s = s' := by
          simp [PoolOp.apply, hrem]
        rw [happ]
        obtain ⟨h1, h2, h3⟩ := remove_device_ok_spec s b s' hrem
        apply ih acc s' hpre (poolInv_remove_ok s b s' hinv hrem)
        intro c hc
        have hs := hsub c hc
        rw [h3]
        by_cases hcb : c = b
        · subst hcb
          omega
        · rw [h2 c hcb]
          omega
    | occupyDevice b =>
      simp only [tracePre] at hpre
      cases hocc : s.occupy b with
      | error e =>
        have happ : (PoolOp.occupyDevice b).apply s = s := by
          simp [PoolOp.apply, hocc]
        rw [happ]
        exact ih acc s hpre hinv hsub
      | ok x =>
        have happ : (PoolOp.occupyDevice b).apply s = x.2 := by
          simp [PoolOp.apply, hocc]
        rw [happ]
        have hok : s.occupy b = .ok (x.1, x.2) := by rw [hocc]
        obtain ⟨h1, h2, h3, h4, h5⟩ := occupy_ok_spec s b x.1 x.2 hok
        obtain ⟨hinv', _, _⟩ := poolInv_occupy_ok s b x.1 x.2 hinv hok
        apply ih acc x.2 hpre hinv'
        intro c hc
        have hs := hsub c hc
        by_cases hcb : c = b
        · subst hcb
          omega
        · rw [h3 c hcb, h5 c hcb]
          omega
    | releaseDevice d =>
      simp only [tracePre, Bool.and_eq_true, decide_eq_true_eq] at hpre
      obtain ⟨hmem, hrest⟩ := hpre
      apply ih acc _ hrest (poolInv_release s d hinv)
      intro c hc
      have hs := hsub c hc
      have hcd : c ≠ d.bus_id := fun hh => hc (hh ▸ hmem)
      rw [release_avail_other s d hcd, release_used_other s d hcd]
      exact hs
    | cleanupPool linux =>
      simp only [tracePre] at hpre
      apply ih acc _ hpre (poolInv_cleanup s linux hinv)
      intro c hc
      have hs := hsub c hc
      simp only [PoolOp.apply, UsbIpServer.cleanup]
      cases linux with
      | true => simp
      | false =>
        simp only [Bool.false_eq_true, if_false, busCount_nil]
        exact ⟨cleanupFold_zero s.used_devices s.available_devices hs.1 hs.2, trivial⟩

/-! ### Claims C1, C3, C7 about the pool -/

/-- A device with bus id "x" (byte 120); all other fields default. -/
def devX : UsbDevice := { bus_id := [120] }

/-- A device with bus id "a" (byte 97); all other fields default. -/
def devA : UsbDevice := { bus_id := [97] }

/-- The trace refuting claim C1 as stated: release a device never added,
then add a distinct device with the same bus id. -/
def opsCex : List PoolOp := [.releaseDevice devX, .addDevice devX]

/-- C1, counterexample: the trace `opsCex` adds only one device (so all
added devices trivially have pairwise-distinct bus ids), yet after
running it from the empty pool the bus id [120] occurs twice in
`available_devices`: `release` of a device that was never added plants a
copy in the available list, and the subsequent `add_device` pushes a
second one. -/
theorem pool_busid_invariant_cex :
    (addedBusIds opsCex).Nodup ∧ ¬ PoolInv (runOps opsCex emptyServer) := by
  constructor
  · decide
  · intro h
    have h120 := h [120]
    revert h120
    decide

/-- C1 (amended): for every sequence of pool operations starting from the
empty pool, if every added device has a bus id distinct from all
previously added ones AND every device passed to `release` carries the
bus id of a previously added device, then at every instant each bus id
appears at most once across `available_devices` and `used_devices`
together (so never in both sets and never duplicated in one). -/
theorem pool_busid_invariant_amended (ops : List PoolOp)
    (h : tracePre [] ops = true) : PoolInv (runOps ops emptyServer) := by
  apply runOps_inv ops [] emptyServer h
  · intro b
    simp [emptyServer]
  · intro b _
    simp [emptyServer]

/-- A small well-formed trace exercising add, occupy, release, cleanup. -/
def opsWit : List PoolOp :=
  [.addDevice devA, .occupyDevice [97], .releaseDevice devA, .cleanupPool false]

/-- Witness for C1 (amended) at the concrete trace `opsWit`. -/
theorem pool_busid_invariant_wit :
    tracePre [] opsWit = true ∧ PoolInv (runOps opsWit emptyServer) :=
  ⟨by decide, pool_busid_invariant_amended opsWit (by decide)⟩

/-- C3: `occupy` fails exactly when no device with the requested bus id
is in `available_devices` (covering unknown and already-in-use bus ids
uniformly); on success it returns a device with that bus id, one such
device is removed from `available_devices` (and no other bus id is
touched there), and a device with that bus id is present in
`used_devices` afterwards. -/
theorem occupy_contract (s : UsbIpServer) (b : BusId) :
    ((∃ e, s.occupy b = .error e) ↔ busCount s.available_devices b = 0) ∧
    (∀ dev s', s.occupy b = .ok (dev, s') →
      dev.bus_id = b ∧
      busCount s'.available_devices b + 1 = busCount s.available_devices b ∧
      (∀ c, c ≠ b → busCount s'.available_devices c = busCount s.available_devices c) ∧
      1 ≤ busCount s'.used_devices b) := by
  refine ⟨occupy_eq_error_iff s b, ?_⟩
  intro dev s' h
  obtain ⟨h1, h2, h3, h4, _⟩ := occupy_ok_spec s b dev s' h
  refine ⟨h1, h2, h3, ?_⟩
  rw [h4]
  by_cases h0 : busCount s.used_devices b = 0
  · rw [if_pos h0]
  · rw [if_neg h0]
    omega

/-- The pool holding just `devA` in the available list. -/
def poolA : UsbIpServer := ⟨[devA], []⟩

/-- The pool holding just `devA` in the used list. -/
def poolUsedA : UsbIpServer := ⟨[], [devA]⟩

/-- Witness for C3: on `poolA`, occupying bus id [97] succeeds, yields
`devA`, and leaves a device with that bus id in the used set. -/
theorem occupy_contract_wit :
    poolA.occupy [97] = .ok (devA, poolUsedA) ∧
    devA.bus_id = [97] ∧ 1 ≤ busCount poolUsedA.used_devices [97] :=
  ⟨rfl, ((occupy_contract poolA [97]).2 devA poolUsedA rfl).1,
    (((occupy_contract poolA [97]).2 devA poolUsedA rfl).2).2.2⟩

/-- The pool refuting claim C7 as stated: two available devices with the
same bus id [120]. -/
def dupPool : UsbIpServer := ⟨[devX, devX], []⟩

/-- C7, counterexample: the claim quantifies over every pool state, but
on a state whose available list already holds two devices with bus id
[120], releasing a device with that bus id twice leaves both copies in
place (release inserts nothing when a match is present), so the
available set does not contain exactly one device with that bus id. -/
theorem release_idempotent_cex :
    busCount ((dupPool.release devX).release devX).available_devices devX.bus_id ≠ 1 := by
  decide

/-- C7 (amended): for every pool state whose available list holds at
most one device with d's bus id, releasing d twice in a row leaves the
available set with exactly one device with that bus id and the used set
with none. -/
theorem release_idempotent_amended (s : UsbIpServer) (d : UsbDevice)
    (h : busCount s.available_devices d.bus_id ≤ 1) :
    busCount ((s.release d).release d).available_devices d.bus_id = 1 ∧
    busCount ((s.release d).release d).used_devices d.bus_id = 0 := by
  constructor
  · rw [release_avail_self, release_avail_self]
    omega
  · exact release_used_self _ d

/-- Witness for C7 (amended) at the empty pool and `devX`. -/
theorem release_idempotent_wit :
    busCount emptyServer.available_devices devX.bus_id ≤ 1 ∧
    busCount ((emptyServer.release devX).release devX).available_devices devX.bus_id = 1 ∧
    busCount ((emptyServer.release devX).release devX).used_devices devX.bus_id = 0 :=
  ⟨by decide, (release_idempotent_amended emptyServer devX (by decide)).1,
    (release_idempotent_amended emptyServer devX (by decide)).2⟩

/-! ### Wire messages and protocol-facing handlers -/

/-- Is `c` a UTF-8 continuation byte (0x80-0xBF)? -/
def isCont (c : Nat) : Bool := decide (0x80 ≤ c ∧ c ≤ 0xBF)

/-- Models Rust std `str::from_utf8` validity (RFC 3629 well-formed
UTF-8), used by `handle_op_req_import` on the trimmed bus-id bytes. -/
def validateUtf8 : List Nat → Bool
  | [] => true
  | b :: rest =>
    if b ≤ 0x7F then validateUtf8 rest
    else if 0xC2 ≤ b ∧ b ≤ 0xDF then
      match rest with
      | c1 :: rest2 => isCont c1 && validateUtf8 rest2
      | [] => false
    else if b = 0xE0 then
      match rest with
      | c1 :: c2 :: rest2 =>
        decide (0xA0 ≤ c1 ∧ c1 ≤ 0xBF) && isCont c2 && validateUtf8 rest2
      | _ => false
    else if (0xE1 ≤ b ∧ b ≤ 0xEC) ∨ b = 0xEE ∨ b = 0xEF then
      match rest with
      | c1 :: c2 :: rest2 => isCont c1 && isCont c2 && validateUtf8 rest2
      | _ => false
    else if b = 0xED then
      match rest with
      | c1 :: c2 :: rest2 =>
        decide (0x80 ≤ c1 ∧ c1 ≤ 0x9F) && isCont c2 && validateUtf8 rest2
      | _ => false
    else if b = 0xF0 then
      match rest with
      | c1 :: c2 :: c3 :: rest2 =>
        decide (0x90 ≤ c1 ∧ c1 ≤ 0xBF) && isCont c2 && isCont c3 && validateUtf8 rest2
      | _ => false
    else if 0xF1 ≤ b ∧ b ≤ 0xF3 then
      match rest with
      | c1 :: c2 :: c3 :: rest2 =>
        isCont c1 && isCont c2 && isCont c3 && validateUtf8 rest2
      | _ => false
    else if b = 0xF4 then
      match rest with
      | c1 :: c2 :: c3 :: rest2 =>
        decide (0x80 ≤ c1 ∧ c1 ≤ 0x8F) && isCont c2 && isCont c3 && validateUtf8 rest2
      | _ => false
    else false

/-- `UsbIpHeaderBasic` (usbip_protocol.rs is not in the given tree;
fields from the spec, section 3).  All fields are u32 values on the
wire; only bitwise-or and equality are applied to them here, so plain
naturals are a faithful model. -/
structure UsbIpHeaderBasic where
  command : Nat
  seqnum : Nat
  devid : Nat
  direction : Nat
  ep : Nat
deriving DecidableEq, Repr

/-- USB/IP reply code for a submit reply, from the USB/IP protocol. -/
def USBIP_RET_SUBMIT : Nat := 3

/-- USB/IP reply code for an unlink reply, from the USB/IP protocol. -/
def USBIP_RET_UNLINK : Nat := 4

/-- Modelled from the spec (section 3): the reply messages, one
constructor per `UsbIpResponse` constructor call in `lib.rs` (binary
encoding is out of scope; each constructor carries the payload the
`lib.rs` call sites supply). -/
inductive UsbIpResponse where
  | opRepDevlist (devices : List UsbDevice)
  | opRepImportSuccess (device : UsbDevice)
  | opRepImportFail
  | usbipRetSubmitSuccess (header : UsbIpHeaderBasic) (status : Nat)
      (actual_length : Nat) (data : List Nat) (iso : List Nat)
  | usbipRetSubmitFail (header : UsbIpHeaderBasic) (actual_length : Nat)
  | usbipRetUnlinkSuccess (header : UsbIpHeaderBasic)

/-- The header carried by a data-plane reply, if any. -/
def UsbIpResponse.replyHeader : UsbIpResponse → Option UsbIpHeaderBasic
  | .usbipRetSubmitSuccess h _ _ _ _ => some h
  | .usbipRetSubmitFail h _ => some h
  | .usbipRetUnlinkSuccess h => some h
  | _ => none

/-- `UsbIpServer::handle_op_req_devlist` (src/src/lib.rs, lines
306-314): snapshot the available list into a devlist reply. -/
def UsbIpServer.handle_op_req_devlist (s : UsbIpServer) : Except String UsbIpResponse :=
  .ok (.opRepDevlist s.available_devices)

/-- `UsbIpServer::handle_op_req_import` (src/src/lib.rs, lines 316-345):
trim the 32-byte bus-id field at the first NUL, decode as UTF-8 (error
before anything else if invalid), release any currently imported device,
then occupy the requested bus id — success stores the device in the slot
and replies import-success, failure leaves the slot empty and replies
import-fail.  Returns (reply, new slot, new pool). -/
def releasePrior (s : UsbIpServer) (slot : Option UsbDevice) : UsbIpServer :=
  match slot with
  | some dev => s.release dev
  | none => s

def UsbIpServer.handle_op_req_import (s : UsbIpServer) (busid : List Nat)
    (imported_device : Option UsbDevice) :
    Except String (UsbIpResponse × Option UsbDevice × UsbIpServer) :=
  let trimmed := busid.takeWhile (fun x => x != 0)
  if validateUtf8 trimmed then
    let s1 := releasePrior s imported_device
    match s1.occupy trimmed with
    | .ok x => .ok (.opRepImportSuccess x.1, some x.1, x.2)
    | .error _ => .ok (.opRepImportFail, none, s1)
  else
    .error "Invalid bus id"

/-- `UsbIpServer::handle_usbip_cmd_submit` (src/src/lib.rs, lines
347-409); the `&self` receiver is unused by the Rust code, so it is
omitted.  `real_ep as u8` is the `% 256` at the `find_ep` call. -/
def handle_usbip_cmd_submit (device : UsbDevice) (header : UsbIpHeaderBasic)
    (transfer_buffer_length : Nat) (setup : List Nat) (data : List Nat) :
    Except String UsbIpResponse :=
  let out := header.direction == 0
  let real_ep := if out then header.ep else header.ep ||| 0x80
  let header2 :=
    { header with command := USBIP_RET_SUBMIT, devid := 0, direction := 0, ep := 0 }
  match device.find_ep (real_ep % 256) with
  | none => .ok (.usbipRetSubmitFail header2 0)
  | some x =>
    match device.handle_urb x.1 x.2 transfer_buffer_length (SetupPacket.parse setup) data with
    | .ok resp =>
      let actual_length :=
        match x.1.direction with
        | .In => resp.length
        | .Out => transfer_buffer_length
      .ok (.usbipRetSubmitSuccess header2 0 actual_length resp [])
    | .error _ =>
      let actual_length :=
        match x.1.direction with
        | .In => 0
        | .Out => transfer_buffer_length
      .ok (.usbipRetSubmitFail header2 actual_length)

/-- `UsbIpServer::handle_usbip_cmd_unlink` (src/src/lib.rs, lines
411-427); the `&self` receiver is unused by the Rust code, so it is
omitted: unlink is acknowledged unconditionally. -/
def handle_usbip_cmd_unlink (header : UsbIpHeaderBasic) (unlink_seqnum : Nat) :
    Except String UsbIpResponse :=
  .ok (.usbipRetUnlinkSuccess
    { header with command := USBIP_RET_UNLINK, devid := 0, direction := 0, ep := 0 })

/-! ### The per-connection loop (`handler` and `server`) -/

/-- The commands `UsbIpCommand::read_from_socket` can decode
(usbip_protocol.rs is not in the given tree; variants from the spec,
section 3). -/
inductive UsbIpCommand where
  | opReqDevlist
  | opReqImport (busid : List Nat)
  | usbipCmdSubmit (header : UsbIpHeaderBasic) (transfer_buffer_length : Nat)
      (setup : List Nat) (data : List Nat)
  | usbipCmdUnlink (header : UsbIpHeaderBasic) (unlink_seqnum : Nat)

/-- The outcome of one socket read in the loop head of `handler`:
a decoded command, a clean EOF, or any other read/decode error. -/
inductive ReadResult where
  | cmd (c : UsbIpCommand)
  | eof
  | readErr

/-- One loop iteration's environment: what the socket read returns and
whether the socket write (if one happens) succeeds. -/
structure ConnEvent where
  read : ReadResult
  writeOk : Bool

/-- The per-connection state: the shared pool and the connection's
imported-device slot (`imported_device` in `handler`). -/
structure ConnState where
  pool : UsbIpServer
  imported_device : Option UsbDevice

/-- Take the slot and release its device into the pool, as both the
read-error arm of `handler` (src/src/lib.rs, lines 439-441) and the
task epilogue in `server` (lines 523-525) do. -/
def releaseSlot (st : ConnState) : ConnState :=
  ⟨releasePrior st.pool st.imported_device, none⟩

/-- Result of one iteration of the `handler` loop: continue with a new
state, or stop (cleanly on EOF, otherwise with an error).  `termSlot` is
the slot's content at the moment the terminating event struck, before
any release ran; `writes` lists the replies successfully written. -/
inductive StepRes where
  | next (st : ConnState) (writes : List UsbIpResponse)
  | stop (clean : Bool) (termSlot : Option UsbDevice) (st : ConnState)
      (writes : List UsbIpResponse)

/-- One iteration of the `handler` loop (src/src/lib.rs, lines 435-509).
Read error: release the slot, then return (Ok on EOF, Err otherwise).
Devlist/submit/unlink: write the reply; a failed write aborts via `?`
without releasing.  Import: an `Err` from `handle_op_req_import` logs,
releases the slot and continues; an `Ok` writes the reply.  A submit
with no imported device is dropped: no reply, loop continues. -/
def stepConn (st : ConnState) (ev : ConnEvent) : StepRes :=
  match ev.read with
  | .eof => .stop true st.imported_device (releaseSlot st) []
  | .readErr => .stop false st.imported_device (releaseSlot st) []
  | .cmd c =>
    match c with
    | .opReqDevlist =>
      match st.pool.handle_op_req_devlist with
      | .ok r =>
        if ev.writeOk then .next st [r] else .stop false st.imported_device st []
      | .error _ => .next st []
    | .opReqImport busid =>
      match st.pool.handle_op_req_import busid st.imported_device with
      | .ok x =>
        if ev.writeOk then .next ⟨x.2.2, x.2.1⟩ [x.1]
        else .stop false x.2.1 ⟨x.2.2, x.2.1⟩ []
      | .error _ => .next (releaseSlot st) []
    | .usbipCmdSubmit header tbl setup data =>
      match st.imported_device with
      | none => .next st []
      | some device =>
        match handle_usbip_cmd_submit device header tbl setup data with
        | .ok r =>
          if ev.writeOk then .next st [r] else .stop false st.imported_device st []
        | .error _ => .next st []
    | .usbipCmdUnlink header seqnum =>
      match handle_usbip_cmd_unlink header seqnum with
      | .ok r =>
        if ev.writeOk then .next st [r] else .stop false st.imported_device st []
      | .error _ => .next st []

/-- Result of running the loop on a script of events. -/
inductive RunRes where
  | ranOut (st : ConnState)
  | finished (clean : Bool) (termSlot : Option UsbDevice) (st : ConnState)

/-- Run the `handler` loop over a script of socket events. -/
def runHandler : ConnState → List ConnEvent → RunRes
  | st, [] => .ranOut st
  | st, ev :: evs =>
    match stepConn st ev with
    | .next st2 _ => runHandler st2 evs
    | .stop c ts st2 _ => .finished c ts st2

/-- The epilogue the spawned task in `server` (src/src/lib.rs, lines
519-526) runs after `handler` returns: release whatever is still in the
slot. -/
def connTaskFinal (st : ConnState) : ConnState := releaseSlot st

/-! ### The connection invariant and release-on-exit (claim C2) -/

/-- The connection invariant: the pool invariant holds and the imported
device (if any) is no longer in the available list, having been moved
out by `occupy`. -/
def ConnInv (st : ConnState) : Prop :=
  PoolInv st.pool ∧
  ∀ d, st.imported_device = some d →
    busCount st.pool.available_devices d.bus_id = 0

theorem poolInv_releasePrior (s : UsbIpServer) (slot : Option UsbDevice)
    (hinv : PoolInv s) : PoolInv (releasePrior s slot) := by
  cases slot with
  | some dev => exact poolInv_release s dev hinv
  | none => exact hinv

theorem connInv_releaseSlot (st : ConnState) (hinv : ConnInv st) :
    ConnInv (releaseSlot st) := by
  constructor
  · exact poolInv_releasePrior st.pool st.imported_device hinv.1
  · intro d hd
    cases hd

theorem finalRelease_counts (st : ConnState) (hinv : ConnInv st) (d : UsbDevice)
    (hd : st.imported_device = some d) :
    busCount (releaseSlot st).pool.available_devices d.bus_id = 1 ∧
    busCount (releaseSlot st).pool.used_devices d.bus_id = 0 := by
  have h0 := hinv.2 d hd
  have hrp : releasePrior st.pool st.imported_device = st.pool.release d := by
    rw [hd]
    rfl
  constructor
  · show busCount (releasePrior st.pool st.imported_device).available_devices d.bus_id = 1
    rw [hrp, release_avail_self, h0]
    simp
  · show busCount (releasePrior st.pool st.imported_device).used_devices d.bus_id = 0
    rw [hrp]
    exact release_used_self _ _

theorem import_ok_inv (s : UsbIpServer) (busid : List Nat)
    (slot : Option UsbDevice) (r : UsbIpResponse) (slot2 : Option UsbDevice)
    (s2 : UsbIpServer) (hinv : PoolInv s)
    (hok : s.handle_op_req_import busid slot = .ok (r, slot2, s2)) :
    PoolInv s2 ∧
    ∀ d, slot2 = some d → busCount s2.available_devices d.bus_id = 0 := by
  simp only [UsbIpServer.handle_op_req_import] at hok
  by_cases hv : validateUtf8 (busid.takeWhile (fun x => x != 0)) = true
  · rw [if_pos hv] at hok
    have hinv1 := poolInv_releasePrior s slot hinv
    cases hocc : (releasePrior s slot).occupy (busid.takeWhile (fun x => x != 0)) with
    | ok x =>
      rw [hocc] at hok
      simp only [Except.ok.injEq, Prod.mk.injEq] at hok
      obtain ⟨hr, hslot, hs⟩ := hok
      have hokp : (releasePrior s slot).occupy (busid.takeWhile (fun x => x != 0)) =
          .ok (x.1, x.2) := by rw [hocc]
      obtain ⟨hp1, hp2, _⟩ :=
        poolInv_occupy_ok (releasePrior s slot) _ x.1 x.2 hinv1 hokp
      obtain ⟨hb, _⟩ := occupy_ok_spec (releasePrior s slot) _ x.1 x.2 hokp
      constructor
      · rw [← hs]; exact hp1
      · intro d hd
        rw [← hslot] at hd
        have hdx : x.1 = d := Option.some.inj hd
        rw [← hs, ← hdx, hb]
        exact hp2
    | error e =>
      rw [hocc] at hok
      simp only [Except.ok.injEq, Prod.mk.injEq] at hok
      obtain ⟨hr, hslot, hs⟩ := hok
      constructor
      · rw [← hs]; exact hinv1
      · intro d hd
        rw [← hslot] at hd
        cases hd
  · rw [if_neg hv] at hok
    cases hok

theorem stepConn_next_inv (st : ConnState) (ev : ConnEvent)
    (st2 : ConnState) (w : List UsbIpResponse) (hinv : ConnInv st)
    (h : stepConn st ev = .next st2 w) : ConnInv st2 := by
  obtain ⟨re, wok⟩ := ev
  cases re with
  | eof => simp [stepConn] at h
  | readErr => simp [stepConn] at h
  | cmd c =>
    cases c with
    | opReqDevlist =>
      simp only [stepConn, UsbIpServer.handle_op_req_devlist] at h
      cases wok with
      | true =>
        simp only [if_true] at h
        obtain ⟨h1, _⟩ := StepRes.next.inj h
        rw [← h1]; exact hinv
      | false => simp at h
    | opReqImport busid =>
      simp only [stepConn] at h
      cases himp : st.pool.handle_op_req_import busid st.imported_device with
      | ok x =>
        rw [himp] at h
        obtain ⟨hi1, hi2⟩ :=
          import_ok_inv st.pool busid st.imported_device x.1 x.2.1 x.2.2
            hinv.1 (by rw [himp])
        cases wok with
        | true =>
          simp only [if_true] at h
          obtain ⟨h1, _⟩ := StepRes.next.inj h
          rw [← h1]
          exact ⟨hi1, hi2⟩
        | false => simp at h
      | error e =>
        rw [himp] at h
        obtain ⟨h1, _⟩ := StepRes.next.inj h
        rw [← h1]
        exact connInv_releaseSlot st hinv
    | usbipCmdSubmit header tbl setup data =>
      simp only [stepConn] at h
      cases hslot : st.imported_device with
      | none =>
        rw [hslot] at h
        obtain ⟨h1, _⟩ := StepRes.next.inj h
        rw [← h1]; exact hinv
      | some device =>
        simp only [hslot] at h
        cases hsub : handle_usbip_cmd_submit device header tbl setup data with
        | ok r =>
          simp only [hsub] at h
          cases wok with
          | true =>
            simp only [if_true] at h
            obtain ⟨h1, _⟩ := StepRes.next.inj h
            rw [← h1]; exact hinv
          | false => simp at h
        | error e =>
          simp only [hsub] at h
          obtain ⟨h1, _⟩ := StepRes.next.inj h
          rw [← h1]; exact hinv
    | usbipCmdUnlink header seqnum =>
      simp only [stepConn, handle_usbip_cmd_unlink] at h
      cases wok with
      | true =>
        simp only [if_true] at h
        obtain ⟨h1, _⟩ := StepRes.next.inj h
        rw [← h1]; exact hinv
      | false => simp at h

theorem stepConn_stop_spec (st : ConnState) (ev : ConnEvent) (c : Bool)
    (ts : Option UsbDevice) (st2 : ConnState) (w : List UsbIpResponse)
    (hinv : ConnInv st) (h : stepConn st ev = .stop c ts st2 w) :
    ConnInv st2 ∧
    ∀ d, ts = some d →
      busCount (connTaskFinal st2).pool.available_devices d.bus_id = 1 ∧
      busCount (connTaskFinal st2).pool.used_devices d.bus_id = 0 := by
  have hsame : ∀ d, st.imported_device = some d →
      busCount (connTaskFinal st).pool.available_devices d.bus_id = 1 ∧
      busCount (connTaskFinal st).pool.used_devices d.bus_id = 0 :=
    fun d hd => finalRelease_counts st hinv d hd
  have hrel : ∀ d, st.imported_device = some d →
      busCount (connTaskFinal (releaseSlot st)).pool.available_devices d.bus_id = 1 ∧
      busCount (connTaskFinal (releaseSlot st)).pool.used_devices d.bus_id = 0 := by
    intro d hd
    have hidem : connTaskFinal (releaseSlot st) = releaseSlot st := rfl
    rw [hidem]
    exact finalRelease_counts st hinv d hd
  obtain ⟨re, wok⟩ := ev
  cases re with
  | eof =>
    simp only [stepConn] at h
    obtain ⟨_, h2, h3, _⟩ := StepRes.stop.inj h
    rw [← h3, ← h2]
    exact ⟨connInv_releaseSlot st hinv, hrel⟩
  | readErr =>
    simp only [stepConn] at h
    obtain ⟨_, h2, h3, _⟩ := StepRes.stop.inj h
    rw [← h3, ← h2]
    exact ⟨connInv_releaseSlot st hinv, hrel⟩
  | cmd cm =>
    cases cm with
    | opReqDevlist =>
      simp only [stepConn, UsbIpServer.handle_op_req_devlist] at h
      cases wok with
      | true => simp at h
      | false =>
        simp only [Bool.false_eq_true, if_false] at h
        obtain ⟨_, h2, h3, _⟩ := StepRes.stop.inj h
        rw [← h3, ← h2]
        exact ⟨hinv, hsame⟩
    | opReqImport busid =>
      simp only [stepConn] at h
      cases himp : st.pool.handle_op_req_import busid st.imported_device with
      | ok x =>
        rw [himp] at h
        obtain ⟨hi1, hi2⟩ :=
          import_ok_inv st.pool busid st.imported_device x.1 x.2.1 x.2.2
            hinv.1 (by rw [himp])
        have hinv2 : ConnInv ⟨x.2.2, x.2.1⟩ := ⟨hi1, hi2⟩
        cases wok with
        | true => simp at h
        | false =>
          simp only [Bool.false_eq_true, if_false] at h
          obtain ⟨_, h2, h3, _⟩ := StepRes.stop.inj h
          rw [← h3, ← h2]
          exact ⟨hinv2, fun d hd => finalRelease_counts ⟨x.2.2, x.2.1⟩ hinv2 d hd⟩
      | error e =>
        rw [himp] at h
        simp at h
    | usbipCmdSubmit header tbl setup data =>
      simp only [stepConn] at h
      cases hslot : st.imported_device with
      | none =>
        rw [hslot] at h
        simp at h
      | some device =>
        simp only [hslot] at h
        cases hsub : handle_usbip_cmd_submit device header tbl setup data with
        | ok r =>
          simp only [hsub] at h
          cases wok with
          | true => simp at h
          | false =>
            simp only [Bool.false_eq_true, if_false] at h
            obtain ⟨_, h2, h3, _⟩ := StepRes.stop.inj h
            rw [← h3, ← h2]
            refine ⟨hinv, ?_⟩
            intro d hd
            exact hsame d (by rw [hslot]; exact hd)
        | error e =>
          simp only [hsub] at h
          simp at h
    | usbipCmdUnlink header seqnum =>
      simp only [stepConn, handle_usbip_cmd_unlink] at h
      cases wok with
      | true => simp at h
      | false =>
        simp only [Bool.false_eq_true, if_false] at h
        obtain ⟨_, h2, h3, _⟩ := StepRes.stop.inj h
        rw [← h3, ← h2]
        exact ⟨hinv, hsame⟩

theorem runHandler_spec (evs : List ConnEvent) :
    ∀ st : ConnState, ConnInv st →
      ∀ (c : Bool) (ts : Option UsbDevice) (st2 : ConnState),
        runHandler st evs = .finished c ts st2 →
        ConnInv st2 ∧
        ∀ d, ts = some d →
          busCount (connTaskFinal st2).pool.available_devices d.bus_id = 1 ∧
          busCount (connTaskFinal st2).pool.used_devices d.bus_id = 0 := by
  induction evs with
  | nil =>
    intro st _ c ts st2 h
    simp [runHandler] at h
  | cons ev rest ih =>
    intro st hinv c ts st2 h
    rw [runHandler] at h
    cases hstep : stepConn st ev with
    | next stNext w =>
      rw [hstep] at h
      exact ih stNext (stepConn_next_inv st ev stNext w hinv hstep) c ts st2 h
    | stop c2 ts2 stStop w =>
      rw [hstep] at h
      obtain ⟨hc, hts, hst⟩ := RunRes.finished.inj h
      rw [← hts, ← hst]
      have := stepConn_stop_spec st ev c2 ts2 stStop w hinv hstep
      exact this

/-- C2: starting a connection task with an empty slot on a pool
satisfying the pool invariant, whenever the `handler` loop terminates
(clean EOF, read/decode error, or write error), after the task epilogue
the imported-device slot is empty, and the device imported at the moment
of termination (if any) has its bus id present exactly once in
`available_devices` and no longer at all in `used_devices` — it is
released back exactly once. -/
theorem conn_release_on_exit (pool : UsbIpServer) (evs : List ConnEvent)
    (hinv : PoolInv pool) (c : Bool) (ts : Option UsbDevice) (st2 : ConnState)
    (h : runHandler ⟨pool, none⟩ evs = .finished c ts st2) :
    (connTaskFinal st2).imported_device = none ∧
    ∀ d, ts = some d →
      busCount (connTaskFinal st2).pool.available_devices d.bus_id = 1 ∧
      busCount (connTaskFinal st2).pool.used_devices d.bus_id = 0 := by
  have hc : ConnInv ⟨pool, none⟩ := ⟨hinv, fun d hd => by cases hd⟩
  obtain ⟨_, h2⟩ := runHandler_spec evs ⟨pool, none⟩ hc c ts st2 h
  exact ⟨rfl, h2⟩

/-- A two-event script: a successful import of bus id "a", then a read
error while the device is imported. -/
def evsWit : List ConnEvent :=
  [⟨.cmd (.opReqImport [97]), true⟩, ⟨.readErr, true⟩]

/-- Witness for C2: on the pool holding `devA`, importing it and then
hitting a read error leaves `devA` back in the available list exactly
once, gone from the used list, with the slot empty. -/
theorem conn_release_on_exit_wit :
    runHandler ⟨poolA, none⟩ evsWit =
      .finished false (some devA) ⟨⟨[devA], []⟩, none⟩ ∧
    (connTaskFinal ⟨⟨[devA], []⟩, none⟩).imported_device = none ∧
    busCount (connTaskFinal ⟨⟨[devA], []⟩, none⟩).pool.available_devices devA.bus_id = 1 ∧
    busCount (connTaskFinal ⟨⟨[devA], []⟩, none⟩).pool.used_devices devA.bus_id = 0 := by
  have hrun : runHandler ⟨poolA, none⟩ evsWit =
      .finished false (some devA) ⟨⟨[devA], []⟩, none⟩ := rfl
  have hinv : PoolInv poolA := by
    intro b
    show busCount [devA] b + busCount [] b ≤ 1
    rw [busCount_cons, busCount_nil]
    by_cases hb : devA.bus_id = b
    · rw [if_pos hb]
    · rw [if_neg hb]
      omega
  obtain ⟨h1, h2⟩ :=
    conn_release_on_exit poolA evsWit hinv false (some devA) ⟨⟨[devA], []⟩, none⟩ hrun
  exact ⟨hrun, h1, (h2 devA rfl).1, (h2 devA rfl).2⟩

/-- C4: with a valid-UTF-8 bus id, `handle_op_req_import` with an
occupied slot behaves exactly as releasing that device first and then
importing with an empty slot (re-import replaces, never stacks); then a
successful `occupy` yields the import-success reply with the occupied
device stored in the slot, and a failed `occupy` yields the import-fail
reply with the slot left empty. -/
theorem op_req_import_spec (s : UsbIpServer) (busid : List Nat)
    (slot : Option UsbDevice)
    (hv : validateUtf8 (busid.takeWhile (fun x => x != 0)) = true) :
    (∀ old, slot = some old →
      s.handle_op_req_import busid slot =
        (s.release old).handle_op_req_import busid none) ∧
    (∀ dev s2,
      (releasePrior s slot).occupy (busid.takeWhile (fun x => x != 0)) = .ok (dev, s2) →
      s.handle_op_req_import busid slot = .ok (.opRepImportSuccess dev, some dev, s2)) ∧
    (∀ e,
      (releasePrior s slot).occupy (busid.takeWhile (fun x => x != 0)) = .error e →
      s.handle_op_req_import busid slot = .ok (.opRepImportFail, none, releasePrior s slot)) := by
  refine ⟨?_, ?_, ?_⟩
  · intro old hold
    subst hold
    rfl
  · intro dev s2 hocc
    simp only [UsbIpServer.handle_op_req_import]
    rw [if_pos hv]
    simp only [hocc]
  · intro e hocc
    simp only [UsbIpServer.handle_op_req_import]
    rw [if_pos hv]
    simp only [hocc]

/-- Witness for C4: importing bus id "a" on `poolA` while `devX` is in
the slot releases `devX` first and stores `devA`. -/
theorem op_req_import_spec_wit :
    validateUtf8 (([97] : List Nat).takeWhile (fun x => x != 0)) = true ∧
    (releasePrior poolA (some devX)).occupy
        (([97] : List Nat).takeWhile (fun x => x != 0)) =
      .ok (devA, ⟨[devX], [devA]⟩) ∧
    poolA.handle_op_req_import [97] (some devX) =
      .ok (.opRepImportSuccess devA, some devA, ⟨[devX], [devA]⟩) :=
  ⟨by decide, rfl,
    (op_req_import_spec poolA [97] (some devX) (by decide)).2.1 devA ⟨[devX], [devA]⟩ rfl⟩

/-- `handle_usbip_cmd_submit` never reports a Rust-level error: every
branch returns `Ok` of some reply. -/
theorem submit_always_ok (device : UsbDevice) (header : UsbIpHeaderBasic)
    (tbl : Nat) (setup data : List Nat) :
    ∃ r, handle_usbip_cmd_submit device header tbl setup data = .ok r := by
  cases hfe : device.find_ep
      ((if header.direction == 0 then header.ep else header.ep ||| 0x80) % 256) with
  | none => exact ⟨_, by simp only [handle_usbip_cmd_submit, hfe]; rfl⟩
  | some x =>
    cases hu : device.handle_urb x.1 x.2 tbl (SetupPacket.parse setup) data with
    | ok resp => exact ⟨_, by simp only [handle_usbip_cmd_submit, hfe, hu]; rfl⟩
    | error e => exact ⟨_, by simp only [handle_usbip_cmd_submit, hfe, hu]; rfl⟩

/-- C5: when the resolved endpoint exists, a successful URB handler run
produces a success reply whose `actual_length` is the handler's byte
count for an IN endpoint and the requested `transfer_buffer_length` for
an OUT endpoint; a handler error produces a submit-fail reply with
`actual_length` 0 for IN and the full requested length for OUT; in
either case the loop answers and continues — the connection is not torn
down. -/
theorem cmd_submit_lengths (device : UsbDevice) (header : UsbIpHeaderBasic)
    (tbl : Nat) (setup data : List Nat) (ep : UsbEndpoint) (intf : Option Nat)
    (hep : device.find_ep
      ((if header.direction == 0 then header.ep else header.ep ||| 0x80) % 256) =
      some (ep, intf)) :
    (∀ resp, device.handle_urb ep intf tbl (SetupPacket.parse setup) data = .ok resp →
      handle_usbip_cmd_submit device header tbl setup data =
        .ok (.usbipRetSubmitSuccess
          { header with command := USBIP_RET_SUBMIT, devid := 0, direction := 0, ep := 0 }
          0 (if ep.direction = .In then resp.length else tbl) resp [])) ∧
    (∀ e, device.handle_urb ep intf tbl (SetupPacket.parse setup) data = .error e →
      handle_usbip_cmd_submit device header tbl setup data =
        .ok (.usbipRetSubmitFail
          { header with command := USBIP_RET_SUBMIT, devid := 0, direction := 0, ep := 0 }
          (if ep.direction = .In then 0 else tbl))) ∧
    (∀ pool, ∃ r,
      stepConn ⟨pool, some device⟩ ⟨.cmd (.usbipCmdSubmit header tbl setup data), true⟩ =
        .next ⟨pool, some device⟩ [r]) := by
  refine ⟨?_, ?_, ?_⟩
  · intro resp hok
    simp only [handle_usbip_cmd_submit, hep, hok]
    cases hd : ep.direction with
    | In => simp [hd]
    | Out => simp [hd]
  · intro e herr
    simp only [handle_usbip_cmd_submit, hep, herr]
    cases hd : ep.direction with
    | In => simp [hd]
    | Out => simp [hd]
  · intro pool
    obtain ⟨r, hr⟩ := submit_always_ok device header tbl setup data
    exact ⟨r, by simp only [stepConn, hr, if_true]⟩

/-- An interrupt IN endpoint with address 0x81. -/
def epIn : UsbEndpoint := ⟨0x81, 3, 64, 0⟩

/-- An interface owning `epIn` whose handler answers [1, 2, 3]. -/
def intfIn : UsbInterface := ⟨3, 0, 0, [epIn], fun _ _ _ _ => .ok [1, 2, 3]⟩

/-- A device with bus id "b" exposing `intfIn`. -/
def devEpIn : UsbDevice := { bus_id := [98], interfaces := [intfIn] }

/-- A submit header: seqnum 5, direction IN (1), endpoint 1. -/
def hdrSubmit : UsbIpHeaderBasic := ⟨1, 5, 2, 1, 1⟩

/-- Witness for C5: an IN submit on `devEpIn` resolves endpoint 0x81 and
succeeds with actual_length 3, the length of the handler's reply. -/
theorem cmd_submit_lengths_wit :
    devEpIn.find_ep
      ((if hdrSubmit.direction == 0 then hdrSubmit.ep else hdrSubmit.ep ||| 0x80) % 256) =
      some (epIn, some 0) ∧
    devEpIn.handle_urb epIn (some 0) 64 (SetupPacket.parse [0, 0, 0, 0, 0, 0, 0, 0]) [] =
      .ok [1, 2, 3] ∧
    handle_usbip_cmd_submit devEpIn hdrSubmit 64 [0, 0, 0, 0, 0, 0, 0, 0] [] =
      .ok (.usbipRetSubmitSuccess ⟨USBIP_RET_SUBMIT, 5, 0, 0, 0⟩ 0
        (if epIn.direction = .In then ([1, 2, 3] : List Nat).length else 64) [1, 2, 3] []) :=
  ⟨rfl, rfl,
    (cmd_submit_lengths devEpIn hdrSubmit 64 [0, 0, 0, 0, 0, 0, 0, 0] [] epIn (some 0)
      rfl).1 [1, 2, 3] rfl⟩

/-- C6: a submit whose computed real endpoint address is not found on
the imported device yields a submit-fail reply with zero actual_length,
and the connection loop writes it and continues with unchanged state
rather than dropping the connection. -/
theorem cmd_submit_ep_not_found (pool : UsbIpServer) (device : UsbDevice)
    (header : UsbIpHeaderBasic) (tbl : Nat) (setup data : List Nat)
    (hep : device.find_ep
      ((if header.direction == 0 then header.ep else header.ep ||| 0x80) % 256) = none) :
    handle_usbip_cmd_submit device header tbl setup data =
      .ok (.usbipRetSubmitFail
        { header with command := USBIP_RET_SUBMIT, devid := 0, direction := 0, ep := 0 } 0) ∧
    stepConn ⟨pool, some device⟩ ⟨.cmd (.usbipCmdSubmit header tbl setup data), true⟩ =
      .next ⟨pool, some device⟩
        [.usbipRetSubmitFail
          { header with command := USBIP_RET_SUBMIT, devid := 0, direction := 0, ep := 0 } 0] := by
  have h1 : handle_usbip_cmd_submit device header tbl setup data =
      .ok (.usbipRetSubmitFail
        { header with command := USBIP_RET_SUBMIT, devid := 0, direction := 0, ep := 0 } 0) := by
    simp only [handle_usbip_cmd_submit, hep]
  exact ⟨h1, by simp only [stepConn, h1, if_true]⟩

/-- A submit header addressing OUT endpoint 5 (absent on `devA`). -/
def hdrOut : UsbIpHeaderBasic := ⟨1, 7, 0, 0, 5⟩

/-- Witness for C6: endpoint 5 is not on `devA`, and the submit-fail
reply with zero actual_length is produced. -/
theorem cmd_submit_ep_not_found_wit :
    devA.find_ep
      ((if hdrOut.direction == 0 then hdrOut.ep else hdrOut.ep ||| 0x80) % 256) = none ∧
    handle_usbip_cmd_submit devA hdrOut 16 [] [] =
      .ok (.usbipRetSubmitFail ⟨USBIP_RET_SUBMIT, 7, 0, 0, 0⟩ 0) :=
  ⟨rfl, (cmd_submit_ep_not_found emptyServer devA hdrOut 16 [] [] rfl).1⟩

/-- C8: a USBIP_CMD_SUBMIT received with no device imported is dropped —
no reply is written, the loop continues, and both pool and slot are
unchanged. -/
theorem cmd_submit_no_device (pool : UsbIpServer) (header : UsbIpHeaderBasic)
    (tbl : Nat) (setup data : List Nat) (w : Bool) :
    stepConn ⟨pool, none⟩ ⟨.cmd (.usbipCmdSubmit header tbl setup data), w⟩ =
      .next ⟨pool, none⟩ [] := rfl

/-- C9: every submit reply carries a header whose command is the submit
reply code and whose devid/direction/ep are forced to 0 (seqnum kept);
when the endpoint resolved at `header.ep` for OUT and `header.ep ||| 0x80`
otherwise is not found, the reply is exactly the submit-fail with that
canonical header; and every unlink is acknowledged with an unconditional
success reply under the canonical unlink header, independent of any
state. -/
theorem reply_header_canonical (device : UsbDevice) (header : UsbIpHeaderBasic)
    (tbl : Nat) (setup data : List Nat) (seqn : Nat) :
    (∃ r, handle_usbip_cmd_submit device header tbl setup data = .ok r ∧
      r.replyHeader = some ⟨USBIP_RET_SUBMIT, header.seqnum, 0, 0, 0⟩) ∧
    (device.find_ep
        ((if header.direction == 0 then header.ep else header.ep ||| 0x80) % 256) = none →
      handle_usbip_cmd_submit device header tbl setup data =
        .ok (.usbipRetSubmitFail ⟨USBIP_RET_SUBMIT, header.seqnum, 0, 0, 0⟩ 0)) ∧
    handle_usbip_cmd_unlink header seqn =
      .ok (.usbipRetUnlinkSuccess ⟨USBIP_RET_UNLINK, header.seqnum, 0, 0, 0⟩) := by
  refine ⟨?_, ?_, rfl⟩
  · cases hfe : device.find_ep
        ((if header.direction == 0 then header.ep else header.ep ||| 0x80) % 256) with
    | none =>
      exact ⟨.usbipRetSubmitFail ⟨USBIP_RET_SUBMIT, header.seqnum, 0, 0, 0⟩ 0,
        by simp only [handle_usbip_cmd_submit, hfe], rfl⟩
    | some x =>
      cases hu : device.handle_urb x.1 x.2 tbl (SetupPacket.parse setup) data with
      | ok resp =>
        exact ⟨.usbipRetSubmitSuccess ⟨USBIP_RET_SUBMIT, header.seqnum, 0, 0, 0⟩ 0
          (match x.1.direction with | .In => resp.length | .Out => tbl) resp [],
          by simp only [handle_usbip_cmd_submit, hfe, hu], rfl⟩
      | error e =>
        exact ⟨.usbipRetSubmitFail ⟨USBIP_RET_SUBMIT, header.seqnum, 0, 0, 0⟩
          (match x.1.direction with | .In => 0 | .Out => tbl),
          by simp only [handle_usbip_cmd_submit, hfe, hu], rfl⟩
  · intro hep
    simp only [handle_usbip_cmd_submit, hep]

/-- Witness for C9 at `devA` / `hdrOut`: the canonical submit-fail reply
and the canonical unconditional unlink acknowledgment. -/
theorem reply_header_canonical_wit :
    devA.find_ep
      ((if hdrOut.direction == 0 then hdrOut.ep else hdrOut.ep ||| 0x80) % 256) = none ∧
    handle_usbip_cmd_submit devA hdrOut 16 [] [] =
      .ok (.usbipRetSubmitFail ⟨USBIP_RET_SUBMIT, 7, 0, 0, 0⟩ 0) ∧
    handle_usbip_cmd_unlink hdrOut 9 =
      .ok (.usbipRetUnlinkSuccess ⟨USBIP_RET_UNLINK, 7, 0, 0, 0⟩) :=
  ⟨rfl, (reply_header_canonical devA hdrOut 16 [] [] 9).2.1 rfl,
    (reply_header_canonical devA hdrOut 16 [] [] 9).2.2⟩

/-- C10: an OP_REQ_IMPORT whose NUL-trimmed bus-id bytes are not valid
UTF-8 makes `handle_op_req_import` return an error before touching pool
or slot, so no reply is written; the loop then releases any previously
imported device back into the available set, empties the slot, and
continues. -/
theorem op_req_import_invalid_busid (pool : UsbIpServer) (slot : Option UsbDevice)
    (busid : List Nat) (w : Bool)
    (hv : validateUtf8 (busid.takeWhile (fun x => x != 0)) = false) :
    (∃ e, pool.handle_op_req_import busid slot = .error e) ∧
    stepConn ⟨pool, slot⟩ ⟨.cmd (.opReqImport busid), w⟩ =
      .next ⟨releasePrior pool slot, none⟩ [] ∧
    ∀ d, slot = some d →
      busCount (releasePrior pool slot).available_devices d.bus_id =
        max (busCount pool.available_devices d.bus_id) 1 ∧
      busCount (releasePrior pool slot).used_devices d.bus_id = 0 := by
  have herr : pool.handle_op_req_import busid slot = .error "Invalid bus id" := by
    simp only [UsbIpServer.handle_op_req_import]
    rw [if_neg (by simp [hv])]
  refine ⟨⟨_, herr⟩, ?_, ?_⟩
  · simp only [stepConn, herr]
    rfl
  · intro d hd
    have hrp : releasePrior pool slot = pool.release d := by
      rw [hd]
      rfl
    rw [hrp]
    exact ⟨release_avail_self pool d, release_used_self pool d⟩

/-- Witness for C10: byte 0xFF is not valid UTF-8; the import request is
rejected with no reply, `devA` (previously imported) is released, the
slot is emptied and the loop continues. -/
theorem op_req_import_invalid_busid_wit :
    validateUtf8 (([255] : List Nat).takeWhile (fun x => x != 0)) = false ∧
    (∃ e, poolA.handle_op_req_import [255] (some devA) = .error e) ∧
    stepConn ⟨poolA, some devA⟩ ⟨.cmd (.opReqImport [255]), true⟩ =
      .next ⟨releasePrior poolA (some devA), none⟩ [] :=
  ⟨by decide, (op_req_import_invalid_busid poolA (some devA) [255] true (by decide)).1,
    (op_req_import_invalid_busid poolA (some devA) [255] true (by decide)).2.1⟩

end Nusbip
